import Mathlib

/-!
Verification of the lightbus client core against its specification.

The definitions below are a shallow embedding of the Python source:

* `src/lightbus/client/internal_messaging/consumer.py` — the internal
  consumer (`InternalConsumer`), modelled as a transition system over the
  cooperative asyncio scheduler plus a function `consumerStop` mirroring
  `InternalConsumer.stop`.
* `src/lightbus/client/internal_messaging/producer.py` — the queue-depth
  monitor loop (`InternalProducer._queue_monitor`) modelled one sample at
  a time, and `InternalProducer.send`.
* `src/lightbus/transports/base.py` — the default `EventTransport.consume`
  and `EventTransport._sanity_check_listen_for`.
* `src/lightbus/client/subclients/event.py` — the `EventClient`:
  `fire_event`, `listen`, `handle` / `handle_receive_event`, and
  `sanity_check_listener`.
-/

namespace Lightbus

/-! ## Internal consumer

`InternalConsumer` pulls `(command, on_done)` pairs off the shared queue
(`_consumer_loop`) and runs `handler(command)` as a background task
(`handle_in_background`).  `handle_in_background` registers the task in
`_running_commands` and attaches the done-callback `when_task_finished`.

We model the cooperative scheduler as a transition system.  Task
identifiers are natural numbers.  The events are: a background task is
created for a dequeued command (possible only while the consumer loop is
alive), a handler terminates (successfully or with an exception), and the
asyncio done-callback fires (asyncio invokes a done callback exactly once,
and only after the task has terminated; the guards of `cstep` encode
this). -/

/-- The state of the modelled `InternalConsumer` together with the parts of
its environment the claims are about: `loopActive` is whether the
`_consumer_loop` task is alive, `spawned`/`finished`/`callbacked` record
which handler tasks have been created / have terminated / have had
`when_task_finished` run, `running` is `_running_commands`, `queueDone`
counts `queue.task_done()` calls, and `signals` records which commands'
`on_done` events have been set. -/
structure CState where
  loopActive : Bool
  spawned : List Nat
  finished : List Nat
  callbacked : List Nat
  running : List Nat
  queueDone : Nat
  signals : List Nat
  deriving Repr, DecidableEq

/-- Fresh `InternalConsumer`: loop running, nothing spawned. -/
def CState.init : CState := ⟨true, [], [], [], [], 0, []⟩

/-- Scheduler events: task `i` is created by `handle_in_background`;
handler `i` terminates; the done-callback for task `i` runs. -/
inductive CEvent where
  | spawn (i : Nat)
  | finish (i : Nat)
  | callback (i : Nat)
  deriving Repr, DecidableEq

/-- `when_task_finished` from `InternalConsumer.handle_in_background`:
`self._running_commands.remove(fut); queue.task_done(); on_done.set()`.
The three effects happen inside one callback with no suspension point. -/
def whenTaskFinished (s : CState) (i : Nat) : CState :=
  { s with
    callbacked := i :: s.callbacked
    running := s.running.erase i
    queueDone := s.queueDone + 1
    signals := i :: s.signals }

/-- One scheduler step.  `spawn` requires the consumer loop to be alive
(only `_consumer_loop` calls `handle_in_background`) and a fresh task;
`finish` requires a spawned, not-yet-terminated task; `callback` requires
a terminated task whose callback has not yet run (asyncio runs a done
callback once, after completion). -/
def cstep (s : CState) (e : CEvent) : Option CState :=
  match e with
  | .spawn i =>
      if s.loopActive = true ∧ i ∉ s.spawned then
        some { s with spawned := i :: s.spawned, running := i :: s.running }
      else none
  | .finish i =>
      if i ∈ s.spawned ∧ i ∉ s.finished then
        some { s with finished := i :: s.finished }
      else none
  | .callback i =>
      if i ∈ s.finished ∧ i ∉ s.callbacked then
        some (whenTaskFinished s i)
      else none

/-- Run a list of scheduler events from a state. -/
def crun (s : CState) : List CEvent → Option CState
  | [] => some s
  | e :: tr => (cstep s e).bind (fun s1 => crun s1 tr)

/-! ## `InternalConsumer.stop` -/

/-- A handler terminates and its `when_task_finished` done-callback
runs.  Both happen while the `stop` coroutine is suspended (during a
drain-window sleep, or inside `await cancel(...)` for a cancelled
task). -/
def finishAndCallback (s : CState) (i : Nat) : CState :=
  whenTaskFinished { s with finished := i :: s.finished } i

/-- Observable events of `InternalConsumer.stop`: the consumption-loop
task is cancelled; a running handler completes naturally during the
drain window; a handler still running after the window is cancelled. -/
inductive SEvent where
  | cancelLoop
  | taskCompleted (i : Nat)
  | taskCancelled (i : Nat)
  deriving Repr, DecidableEq

/-- The state after the drain phase of `InternalConsumer.stop`: the
consumption loop has been cancelled (phase 1: `await
cancel(self._consumer_task)`), and during the polling loop over
`wait_seconds` the handlers selected by the oracle `f` — those that
complete within the drain window — have finished and run their
callbacks. -/
def stopDrained (s : CState) (f : Nat → Bool) : CState :=
  (s.running.filter f).foldl finishAndCallback { s with loopActive := false }

/-- `self._running_commands` once the drain window has elapsed. -/
def stopRemaining (s : CState) (f : Nat → Bool) : List Nat :=
  (stopDrained s f).running

/-- `InternalConsumer.stop(wait_seconds)`: cancel `_consumer_task`
(emitting `cancelLoop` when a loop was running), let the handlers chosen
by `f` finish during the drain window, then
`await cancel(*self._running_commands)` — each task still running is
cancelled, terminates with `CancelledError`, and its callback runs —
and finally `self._running_commands = set()`.  Returns the final state
and the ordered event list. -/
def consumerStop (s : CState) (f : Nat → Bool) : CState × List SEvent :=
  ({ (stopRemaining s f).foldl finishAndCallback (stopDrained s f) with
      running := [] },
    (if s.loopActive then [SEvent.cancelLoop] else [])
      ++ (s.running.filter f).map SEvent.taskCompleted
      ++ (stopRemaining s f).map SEvent.taskCancelled)

/-- State invariant of the consumer transition system: signals coincide
with the commands whose `when_task_finished` callback ran, the
`task_done` count equals the number of set signals, the running-task set
holds exactly the spawned-but-not-yet-called-back tasks without
duplicates, callbacks only run for finished handlers, and only spawned
handlers finish. -/
def CInv (s : CState) : Prop :=
  s.signals = s.callbacked ∧
  s.queueDone = s.callbacked.length ∧
  s.running.Nodup ∧
  (∀ i : Nat, i ∈ s.running ↔ (i ∈ s.spawned ∧ i ∉ s.callbacked)) ∧
  (∀ i : Nat, i ∈ s.callbacked → i ∈ s.finished) ∧
  (∀ i : Nat, i ∈ s.finished → i ∈ s.spawned)

/-! ## Queue monitor

`InternalProducer._queue_monitor` samples `queue.qsize()` every
`monitor_interval` seconds.  One iteration of its loop is a pure function
of the previous sample (`None` on the first iteration) and the current
size; we record which log message (if any) the iteration emits. -/

/-- `InternalProducer.size_warning`: warnings are displayed if a queue
grows to be equal to or greater than this size. -/
def sizeWarningDefault : Nat := 5

/-- The log message one monitor iteration emits: nothing, the growth
warning ("Queue in ... now has N commands."), or the shrink warning
("Queue in ... has shrunk back down to N commands."); `ok` records
whether the shrink warning carries the " Queue is now at an OK size
again." notice (`everything_ok` nonempty). -/
inductive MonitorLog where
  | nothing
  | grew (n : Nat)
  | shrunk (n : Nat) (ok : Bool)
  deriving Repr, DecidableEq

/-- `show_size_warning = current_size >= self.size_warning and
current_size != previous_size` (on the first iteration `previous_size`
is `None`, which differs from any integer). -/
def monitorWarn (w : Nat) (prev : Option Nat) (cur : Nat) : Bool :=
  decide (w ≤ cur) && decide (prev ≠ some cur)

/-- `queue_has_shrunk = (previous_size is not None and current_size <
previous_size and previous_size >= self.size_warning)`. -/
def monitorShrunk (w : Nat) (prev : Option Nat) (cur : Nat) : Bool :=
  match prev with
  | none => false
  | some p => decide (cur < p) && decide (w ≤ p)

/-- One iteration of `InternalProducer._queue_monitor`, for warning
threshold `w`, previous sample `prev` (`none` before the first
iteration) and current queue size `cur`.  The `queue_has_shrunk` branch
takes priority over `show_size_warning`, and `everything_ok` is
nonempty exactly when `not show_size_warning`. -/
def monitorStep (w : Nat) (prev : Option Nat) (cur : Nat) : MonitorLog :=
  if monitorShrunk w prev cur then .shrunk cur (!monitorWarn w prev cur)
  else if monitorWarn w prev cur then .grew cur
  else .nothing

/-- `InternalProducer.send`: create a completion event, put
`(command, event)` on the queue with `put_nowait`, return the event.  The
queue is a pair list; events are identified by numbers issued by a
counter. -/
def producerSend (queue : List (Nat × Nat)) (nextEvent : Nat) (command : Nat) :
    List (Nat × Nat) × Nat :=
  (queue ++ [(command, nextEvent)], nextEvent)

/-! ## Transport contracts (`src/lightbus/transports/base.py`) -/

/-- Errors raised by the transport base classes. -/
inductive TransportError where
  | notImplemented
  | nothingToListenFor
  deriving Repr, DecidableEq

/-- Default `EventTransport.consume`: unconditionally
`raise NotImplementedError("Event transport ... does not support
listening for events")`. -/
def eventTransportConsume (listenFor : List (String × String))
    (listenerName : String) : Except TransportError (List (List Nat)) :=
  .error .notImplemented

/-- `EventTransport._sanity_check_listen_for`: raise `NothingToListenFor`
when `listen_for` is falsy (empty). -/
def sanityCheckListenFor (listenFor : List (String × String)) :
    Except TransportError Unit :=
  if listenFor = [] then .error .nothingToListenFor else .ok ()

/-! ## Event client (`src/lightbus/client/subclients/event.py`) -/

/-- Wire values carried as event keyword arguments. -/
inductive Value where
  | int (n : Int)
  | str (s : String)
  | null
  deriving Repr, DecidableEq

/-- An event parameter as consumed by `EventClient.fire_event`:
`p.name if isinstance(p, Parameter) else p` — either a `Parameter`
object (carrying a `name`) or a bare string. -/
inductive EventParam where
  | parameter (name : String)
  | plain (name : String)
  deriving Repr, DecidableEq

/-- `p.name if isinstance(p, Parameter) else p`. -/
def EventParam.name : EventParam → String
  | .parameter n => n
  | .plain n => n

/-- The event object returned by `api.get_event(name)`; `fire_event` only
reads its `parameters`. -/
structure ApiEvent where
  parameters : List EventParam
  deriving Repr, DecidableEq

/-- `api.meta`: the API's registered name and version. -/
structure ApiMeta where
  name : String
  version : Nat
  deriving Repr, DecidableEq

/-- A locally registered API: meta information plus its named events. -/
structure Api where
  meta : ApiMeta
  events : List (String × ApiEvent)
  deriving Repr, DecidableEq

/-- `api.get_event(name)`; `none` models the `EventNotFound` raise. -/
def Api.getEvent (api : Api) (eventName : String) : Option ApiEvent :=
  api.events.lookup eventName

/-- `EventMessage(api_name=..., event_name=..., kwargs=..., version=...)`
with its generated identifier. -/
structure EventMessage where
  apiName : String
  eventName : String
  kwargs : List (String × Value)
  version : Nat
  id : Nat
  deriving Repr, DecidableEq

/-- The `EventClient` state and its read-only collaborators.
`eventListeners` is `self._event_listeners`, declared and initialised in
`EventClient.__init__` as `Set[str]` — a set of names only.
`nameValid` is modelled from the spec: `validate_event_or_rpc_name`
(module `lightbus/client/utilities.py`, not under `src/`) validates an
(api, event) name pair's syntax, which the spec leaves unspecified.
`validateOutgoingOk` is modelled from the spec: `validate_outgoing`
(module `lightbus/client/validator.py`, not under `src/`) fails with a
validation error on schema mismatch. -/
structure EventClient where
  apiRegistry : List (String × Api)
  eventListeners : List String
  nameValid : String → String → Bool
  validateOutgoingOk : EventMessage → Bool

/-- Errors raised by `EventClient.fire_event`. -/
inductive FireError where
  | unknownApi
  | eventNotFound
  | invalidEventArguments (numArgs : Nat) (argNames : List String)
      (numParams : Nat) (paramNames : List String)
  | invalidName (apiName : String) (eventName : String)
  | validationFailed
  deriving Repr, DecidableEq

/-- The ordered observable effects of a successful `fire_event`. -/
inductive FireEffect where
  | hookBeforeEventSent (m : EventMessage)
  | sendEventDispatched (m : EventMessage)
  | completionAwaited (m : EventMessage)
  | hookAfterEventSent (m : EventMessage)
  deriving Repr, DecidableEq

/-- Lexicographic code-point comparison of character lists — the string
order Python `sorted` uses. -/
def charListLe : List Char → List Char → Bool
  | [], _ => true
  | _ :: _, [] => false
  | c :: cs, d :: ds =>
      if c.toNat < d.toNat then true
      else if d.toNat < c.toNat then false
      else charListLe cs ds

/-- Lexicographic code-point order on strings. -/
def strLe (a b : String) : Bool := charListLe a.data b.data

/-- Insert a string into an already-sorted list (ascending). -/
def insertSorted (x : String) : List String → List String
  | [] => [x]
  | y :: ys => if strLe x y then x :: y :: ys else y :: insertSorted x ys

/-- Python `sorted(...)` on a collection of strings. -/
def sortedStrings (l : List String) : List String :=
  l.foldr insertSorted []

/-- Modelled from the spec: `deform_to_bus`
(`lightbus/utilities/deforming.py`, not under `src/`) transforms argument
values into wire-safe form; on the primitive values modelled here it is
the identity. -/
def deformToBus (v : Value) : Value := v

/-- `EventClient.fire_event(api_name, name, kwargs, options)`, with the
source's statement order: registry lookup (`UnknownApi`), name syntax
validation, `api.get_event` (`EventNotFound`), the keyword-argument set
check (`InvalidEventArguments` carrying `len(kwargs)`,
`sorted(kwargs.keys())`, `len(event.parameters)`,
`sorted(parameter_names)`), `deform_to_bus`, message construction,
outgoing validation, then the effect sequence: "before send" hook,
`SendEvent` dispatch, `await ....wait()`, "after send" hook.  The
dispatch via `send_to_event_transports` (`BaseSubClient`, not under
`src/`) is modelled from the spec as a producer dispatch whose
completion signal is awaited.  `nextId` models the generated message
identifier. -/
def fireEvent (c : EventClient) (nextId : Nat) (apiName eventName : String)
    (kwargs : List (String × Value)) : Except FireError (List FireEffect) :=
  match c.apiRegistry.lookup apiName with
  | none => .error .unknownApi
  | some api =>
    if c.nameValid apiName eventName then
      match api.getEvent eventName with
      | none => .error .eventNotFound
      | some event =>
        let parameterNames := (event.parameters.map EventParam.name).dedup
        if (kwargs.map Prod.fst).toFinset ≠ parameterNames.toFinset then
          .error (.invalidEventArguments kwargs.length
            (sortedStrings (kwargs.map Prod.fst))
            event.parameters.length (sortedStrings parameterNames))
        else
          let kwargs2 := kwargs.map (fun p => (p.1, deformToBus p.2))
          let msg : EventMessage :=
            ⟨api.meta.name, eventName, kwargs2, api.meta.version, nextId⟩
          if c.validateOutgoingOk msg then
            .ok [.hookBeforeEventSent msg, .sendEventDispatched msg,
                 .completionAwaited msg, .hookAfterEventSent msg]
          else .error .validationFailed
    else .error (.invalidName apiName eventName)

/-- The parameter kinds `inspect.signature` reports, as inspected by
`sanity_check_listener`. -/
inductive ParamKind where
  | positionalOnly
  | positionalOrKeyword
  | varPositional
  | keywordOnly
  | varKeyword
  deriving Repr, DecidableEq

/-- What `sanity_check_listener` observes about a listener: whether it is
callable, and the parameter kinds of its signature. -/
structure ListenerSig where
  callableFlag : Bool
  params : List ParamKind
  deriving Repr, DecidableEq

/-- Errors raised by `EventClient.listen`.  The duplicate-name raise in
the source is a bare `Exception` (with a TODO for a custom class); it is
the registration error. -/
inductive ListenError where
  | invalidEventListener
  | duplicateListener (name : String)
  | invalidName (apiName : String) (eventName : String)
  deriving Repr, DecidableEq

/-- `sanity_check_listener(listener)`: not callable →
`InvalidEventListener`; a `*args` parameter makes any signature
acceptable; otherwise zero positional parameters →
`InvalidEventListener`. -/
def sanityCheckListener (l : ListenerSig) : Except ListenError Unit :=
  if l.callableFlag = false then .error .invalidEventListener
  else
    let totalPositionalArgs := l.params.countP fun k =>
      match k with
      | .positionalOnly => true
      | .positionalOrKeyword => true
      | _ => false
    if l.params.contains ParamKind.varPositional then .ok ()
    else if totalPositionalArgs = 0 then .error .invalidEventListener
    else .ok ()

/-- The observable effects of a successful `listen`. -/
inductive ListenEffect where
  | consumeEventsDispatched (events : List (String × String)) (listenerName : String)
  | completionAwaited (listenerName : String)
  deriving Repr, DecidableEq

/-- `EventClient.listen(events, listener, listener_name, options)`,
returning the raised error or the effect list, together with the final
client state.  The source's statement order: `sanity_check_listener`,
the duplicate-name check against `self._event_listeners`,
`validate_event_or_rpc_name` for every pair in `events`, the
`ConsumeEventsCommand` dispatch with awaited completion (modelled from
the spec as in `fireEvent`), and — as the final statement — the only
mutation, `self._event_listeners.add(listener_name)`.  The inner
`async def listener()` consumption loop defined in the source is never
scheduled as a task, so no loop-start effect is produced. -/
def listen (c : EventClient) (events : List (String × String))
    (listener : ListenerSig) (listenerName : String) :
    Except ListenError (List ListenEffect) × EventClient :=
  match sanityCheckListener listener with
  | .error e => (.error e, c)
  | .ok _ =>
    if listenerName ∈ c.eventListeners then
      (.error (.duplicateListener listenerName), c)
    else
      match events.find? (fun p => !(c.nameValid p.1 p.2)) with
      | some p => (.error (.invalidName p.1 p.2), c)
      | none =>
        (.ok [.consumeEventsDispatched events listenerName,
              .completionAwaited listenerName],
         { c with eventListeners := listenerName :: c.eventListeners })

/-- Python runtime errors arising in `EventClient.handle`. -/
inductive PyErr where
  | typeError
  | attributeError
  | notImplementedError
  deriving Repr, DecidableEq

/-- Python semantics of `self._event_listeners.keys()` when
`_event_listeners : Set[str]`: a `set` object has no `keys` attribute,
so the access raises `AttributeError`. -/
def setKeys (s : List String) : Except PyErr (List String) :=
  .error .attributeError

/-- Python semantics of `self._event_listeners[command.listener_name]`
when `_event_listeners : Set[str]`: a `set` object is not subscriptable,
so the subscript raises `TypeError`.  (No listener-object type exists to
return: `listen` stores only the name.) -/
def setSubscript (s : List String) (key : String) : Except PyErr Unit :=
  .error .typeError

/-- The observable effects of handling a `ReceiveEvent` command. -/
inductive RecvEffect where
  | unknownListenerLogged
  | messagePutOnIntakeQueue (m : EventMessage)
  deriving Repr, DecidableEq

/-- `EventClient.handle_receive_event(command)`: when
`command.listener_name not in self._event_listeners`, log at debug level
— the log call's arguments eagerly evaluate
`self._event_listeners.keys()` — and drop the message; otherwise look up
`self._event_listeners[command.listener_name]` and put the message on
`listener.incoming_events`.  Both branches go through the `Set[str]`
operations above. -/
def handleReceiveEvent (c : EventClient) (listenerName : String)
    (message : EventMessage) : Except PyErr (List RecvEffect) :=
  if listenerName ∉ c.eventListeners then
    match setKeys c.eventListeners with
    | .error e => .error e
    | .ok _ => .ok [.unknownListenerLogged]
  else
    match setSubscript c.eventListeners listenerName with
    | .error e => .error e
    | .ok _ => .ok [.messagePutOnIntakeQueue message]

/-- Modelled from the spec: the command variants
(`lightbus/client/commands.py` is not under `src/`): `SendEvent`,
`AcknowledgeEvent`, `ConsumeEvents` (its destination queue modelled as a
queue identifier), `ReceiveEvent`. -/
inductive Command where
  | sendEvent (message : EventMessage)
  | acknowledgeEvent (message : EventMessage)
  | consumeEvents (events : List (String × String)) (destinationQueue : Nat)
      (listenerName : String)
  | receiveEvent (message : EventMessage) (listenerName : String)
  deriving Repr, DecidableEq

/-- Whether a command is the `ReceiveEvent` variant. -/
def Command.isReceiveEvent : Command → Bool
  | .receiveEvent _ _ => true
  | _ => false

/-- `EventClient.handle` (a `singledispatchmethod`): only
`handle_receive_event` is registered (for `ReceiveEventCommand`); every
other variant reaches the base implementation, which raises
`NotImplementedError`.  The single-dispatch mechanism
(`lightbus/utilities/singledispatch.py`, not under `src/`) is modelled
from the spec as a match on the command's variant. -/
def handle (c : EventClient) (cmd : Command) : Except PyErr (List RecvEffect) :=
  match cmd with
  | .receiveEvent message listenerName => handleReceiveEvent c listenerName message
  | _ => .error .notImplementedError

/-- Whether a monitor log message carries the " Queue is now at an OK
size again." recovery notice. -/
def MonitorLog.isRecoveryNotice : MonitorLog → Bool
  | .shrunk _ ok => ok
  | _ => false

/-- Whether a monitor iteration logged a warning-level size message at
all (growth or shrink). -/
def MonitorLog.isWarning : MonitorLog → Bool
  | .nothing => false
  | _ => true

/-! ## Concrete fixtures used in closed statements and witnesses -/

/-- The `shop` API with the event `order_placed` declaring the single
parameter `order_id`. -/
def shopApi : Api :=
  ⟨⟨"shop", 1⟩, [("order_placed", ⟨[EventParam.plain "order_id"]⟩)]⟩

/-- A client with the `shop` API registered, no listeners, and
name/schema validation passing. -/
def shopClient : EventClient :=
  ⟨[("shop", shopApi)], [], fun _ _ => true, fun _ => true⟩

/-- A valid listener: callable, one positional-or-keyword parameter. -/
def okListener : ListenerSig := ⟨true, [ParamKind.positionalOrKeyword]⟩

/-- The message built by firing `shop.order_placed` with
`{"order_id": 1}` (message identifier 0). -/
def orderPlacedMessage : EventMessage :=
  ⟨"shop", "order_placed", [("order_id", Value.int 1)], 1, 0⟩

/-- The effect sequence `fireEvent` is expected to produce for
`orderPlacedMessage`. -/
def orderPlacedTrace : List FireEffect :=
  [FireEffect.hookBeforeEventSent orderPlacedMessage,
   FireEffect.sendEventDispatched orderPlacedMessage,
   FireEffect.completionAwaited orderPlacedMessage,
   FireEffect.hookAfterEventSent orderPlacedMessage]

/-- Whether a fire effect is the dispatch of a `SendEvent` command. -/
def FireEffect.isSendDispatch : FireEffect → Bool
  | .sendEventDispatched _ => true
  | _ => false

/-! ## Consumer lemmas and claims about the internal command channel -/

theorem crun_append (s : CState) (l1 l2 : List CEvent) :
    crun s (l1 ++ l2) = (crun s l1).bind fun s1 => crun s1 l2 := by
  induction l1 generalizing s with
  | nil => rfl
  | cons e tl ih =>
      cases h : cstep s e with
      | none => simp [crun, h]
      | some s2 => simp [crun, h, ih]

theorem cstep_callbacked_mono {s s1 : CState} {e : CEvent}
    (h : cstep s e = some s1) {i : Nat} (hi : i ∈ s.callbacked) :
    i ∈ s1.callbacked := by
  cases e with
  | spawn j =>
      simp only [cstep] at h
      split at h
      · cases h; exact hi
      · exact Option.noConfusion h
  | finish j =>
      simp only [cstep] at h
      split at h
      · cases h; exact hi
      · exact Option.noConfusion h
  | callback j =>
      simp only [cstep] at h
      split at h
      · cases h; exact List.mem_cons_of_mem _ hi
      · exact Option.noConfusion h

theorem crun_count_callback_of_mem {tr : List CEvent} {s s1 : CState}
    (h : crun s tr = some s1) {i : Nat} (hi : i ∈ s.callbacked) :
    tr.count (CEvent.callback i) = 0 := by
  induction tr generalizing s with
  | nil => rfl
  | cons e tl ih =>
      simp only [crun] at h
      cases hstep : cstep s e with
      | none => rw [hstep] at h; exact Option.noConfusion h
      | some s2 =>
          rw [hstep, Option.some_bind] at h
          have htl := ih h (cstep_callbacked_mono hstep hi)
          have hne : e ≠ CEvent.callback i := by
            intro he
            subst he
            simp only [cstep] at hstep
            split at hstep
            · rename_i hg; exact hg.2 hi
            · exact Option.noConfusion hstep
          rw [List.count_cons]
          simp [htl, hne]

theorem crun_count_callback_le_one {tr : List CEvent} {s s1 : CState}
    (h : crun s tr = some s1) (i : Nat) :
    tr.count (CEvent.callback i) ≤ 1 := by
  induction tr generalizing s with
  | nil => simp
  | cons e tl ih =>
      simp only [crun] at h
      cases hstep : cstep s e with
      | none => rw [hstep] at h; exact Option.noConfusion h
      | some s2 =>
          rw [hstep, Option.some_bind] at h
          by_cases he : e = CEvent.callback i
          · subst he
            have hmem : i ∈ s2.callbacked := by
              simp only [cstep] at hstep
              split at hstep
              · cases hstep; exact List.mem_cons_self _ _
              · exact Option.noConfusion hstep
            have h0 := crun_count_callback_of_mem h hmem
            rw [List.count_cons]
            simp [h0]
          · have htl := ih h
            rw [List.count_cons]
            simp [he, htl]

theorem crun_finished_mem {tr : List CEvent} {s s1 : CState}
    (h : crun s tr = some s1) {i : Nat} (hi : i ∈ s1.finished) :
    i ∈ s.finished ∨ CEvent.finish i ∈ tr := by
  induction tr generalizing s with
  | nil => cases h; exact Or.inl hi
  | cons e tl ih =>
      simp only [crun] at h
      cases hstep : cstep s e with
      | none => rw [hstep] at h; exact Option.noConfusion h
      | some s2 =>
          rw [hstep, Option.some_bind] at h
          rcases ih h with h2 | h2
          · cases e with
            | spawn j =>
                simp only [cstep] at hstep
                split at hstep
                · cases hstep; exact Or.inl h2
                · exact Option.noConfusion hstep
            | finish j =>
                simp only [cstep] at hstep
                split at hstep
                · cases hstep
                  rcases List.mem_cons.mp h2 with rfl | hmem
                  · exact Or.inr (List.mem_cons_self _ _)
                  · exact Or.inl hmem
                · exact Option.noConfusion hstep
            | callback j =>
                simp only [cstep] at hstep
                split at hstep
                · cases hstep; exact Or.inl h2
                · exact Option.noConfusion hstep
          · exact Or.inr (List.mem_cons_of_mem _ h2)

theorem cinv_init : CInv CState.init := by
  refine ⟨rfl, rfl, List.nodup_nil, ?_, ?_, ?_⟩ <;> simp [CState.init]

theorem cinv_step {s s1 : CState} {e : CEvent} (h : cstep s e = some s1)
    (hs : CInv s) : CInv s1 := by
  obtain ⟨h1, h2, h3, h4, h5, h6⟩ := hs
  cases e with
  | spawn j =>
      simp only [cstep] at h
      split at h
      · rename_i hg
        cases h
        refine ⟨h1, h2, ?_, ?_, h5, ?_⟩
        · refine List.nodup_cons.mpr ⟨?_, h3⟩
          intro hj
          exact hg.2 ((h4 j).mp hj).1
        · intro i
          constructor
          · intro hi
            rcases List.mem_cons.mp hi with rfl | hi2
            · refine ⟨List.mem_cons_self _ _, ?_⟩
              intro hc
              exact hg.2 (h6 _ (h5 _ hc))
            · obtain ⟨ha, hb⟩ := (h4 i).mp hi2
              exact ⟨List.mem_cons_of_mem _ ha, hb⟩
          · rintro ⟨ha, hb⟩
            rcases List.mem_cons.mp ha with rfl | ha2
            · exact List.mem_cons_self _ _
            · exact List.mem_cons_of_mem _ ((h4 i).mpr ⟨ha2, hb⟩)
        · intro i hi
          exact List.mem_cons_of_mem _ (h6 i hi)
      · exact Option.noConfusion h
  | finish j =>
      simp only [cstep] at h
      split at h
      · rename_i hg
        cases h
        refine ⟨h1, h2, h3, h4, ?_, ?_⟩
        · intro i hi
          exact List.mem_cons_of_mem _ (h5 i hi)
        · intro i hi
          rcases List.mem_cons.mp hi with rfl | hi2
          · exact hg.1
          · exact h6 i hi2
      · exact Option.noConfusion h
  | callback j =>
      simp only [cstep] at h
      split at h
      · rename_i hg
        cases h
        refine ⟨?_, ?_, h3.erase j, ?_, ?_, h6⟩
        · show j :: s.signals = j :: s.callbacked
          rw [h1]
        · show s.queueDone + 1 = (j :: s.callbacked).length
          rw [h2, List.length_cons]
        · intro i
          show i ∈ s.running.erase j ↔ _
          rw [List.Nodup.mem_erase_iff h3, h4 i]
          constructor
          · rintro ⟨hne, ha, hb⟩
            refine ⟨ha, ?_⟩
            intro hc
            rcases List.mem_cons.mp hc with rfl | hc2
            · exact hne rfl
            · exact hb hc2
          · rintro ⟨ha, hb⟩
            refine ⟨?_, ha, ?_⟩
            · rintro rfl
              exact hb (List.mem_cons_self _ _)
            · intro hc
              exact hb (List.mem_cons_of_mem _ hc)
        · intro i hi
          rcases List.mem_cons.mp hi with rfl | hi2
          · exact hg.1
          · exact h5 i hi2
      · exact Option.noConfusion h

theorem cinv_run {tr : List CEvent} {s s1 : CState} (h : crun s tr = some s1)
    (hs : CInv s) : CInv s1 := by
  induction tr generalizing s with
  | nil => cases h; exact hs
  | cons e tl ih =>
      simp only [crun] at h
      cases hstep : cstep s e with
      | none => rw [hstep] at h; exact Option.noConfusion h
      | some s2 =>
          rw [hstep, Option.some_bind] at h
          exact ih h (cinv_step hstep hs)

/-- C1: along every scheduler trace of the consumer from a fresh state,
each command's completion signal is set at most once (its
`when_task_finished` callback fires at most once), and only after the
command's handler has fully terminated (every `callback i` is preceded
by `finish i`); in the resulting state a set signal implies the handler
has finished and the task has been removed from the running-task set,
and the `task_done` count equals the number of set signals, the three
effects happening in the same callback step. -/
theorem consumer_signal_once_after_handler_terminates (tr : List CEvent)
    (s : CState) (h : crun CState.init tr = some s) :
    (∀ i : Nat, tr.count (CEvent.callback i) ≤ 1) ∧
    (∀ (pre post : List CEvent) (i : Nat),
      tr = pre ++ CEvent.callback i :: post → CEvent.finish i ∈ pre) ∧
    (∀ i : Nat, i ∈ s.signals → i ∈ s.finished ∧ i ∉ s.running) ∧
    s.queueDone = s.signals.length := by
  obtain ⟨h1, h2, h3, h4, h5, h6⟩ := cinv_run h cinv_init
  refine ⟨fun i => crun_count_callback_le_one h i, ?_, ?_, ?_⟩
  · intro pre post i hsplit
    subst hsplit
    rw [crun_append] at h
    cases hpre : crun CState.init pre with
    | none => rw [hpre] at h; exact Option.noConfusion h
    | some sPre =>
        rw [hpre, Option.some_bind] at h
        simp only [crun] at h
        cases hstep : cstep sPre (CEvent.callback i) with
        | none => rw [hstep] at h; exact Option.noConfusion h
        | some s3 =>
            have hfin : i ∈ sPre.finished := by
              simp only [cstep] at hstep
              split at hstep
              · rename_i hg; exact hg.1
              · exact Option.noConfusion hstep
            rcases crun_finished_mem hpre hfin with h0 | h0
            · simp [CState.init] at h0
            · exact h0
  · intro i hi
    rw [h1] at hi
    exact ⟨h5 i hi, fun hr => ((h4 i).mp hr).2 hi⟩
  · rw [h1, h2]

/-- Witness for C1: the trace that spawns task 0, lets its handler
finish, and runs its callback, satisfies the theorem's hypothesis. -/
theorem consumer_signal_once_witness :
    [CEvent.spawn 0, CEvent.finish 0, CEvent.callback 0].count
      (CEvent.callback 0) ≤ 1 ∧
    (⟨true, [0], [0], [0], [], 1, [0]⟩ : CState).queueDone
      = (⟨true, [0], [0], [0], [], 1, [0]⟩ : CState).signals.length := by
  have h := consumer_signal_once_after_handler_terminates
    [CEvent.spawn 0, CEvent.finish 0, CEvent.callback 0]
    ⟨true, [0], [0], [0], [], 1, [0]⟩ (by decide)
  exact ⟨h.1 0, h.2.2.2⟩

theorem foldl_fac_running (l : List Nat) (s : CState) :
    (l.foldl finishAndCallback s).running
      = l.foldl (fun r i => r.erase i) s.running := by
  induction l generalizing s with
  | nil => rfl
  | cons i tl ih => exact ih (finishAndCallback s i)

theorem foldl_fac_loopActive (l : List Nat) (s : CState) :
    (l.foldl finishAndCallback s).loopActive = s.loopActive := by
  induction l generalizing s with
  | nil => rfl
  | cons i tl ih => exact ih (finishAndCallback s i)

theorem foldl_fac_signals_mem (l : List Nat) (s : CState) (i : Nat)
    (h : i ∈ s.signals ∨ i ∈ l) :
    i ∈ (l.foldl finishAndCallback s).signals := by
  induction l generalizing s with
  | nil => exact h.resolve_right (by simp)
  | cons j tl ih =>
      apply ih
      rcases h with h | h
      · exact Or.inl (List.mem_cons_of_mem _ h)
      · rcases List.mem_cons.mp h with rfl | h2
        · exact Or.inl (List.mem_cons_self _ _)
        · exact Or.inr h2

theorem foldl_erase_eq_filter (d : List Nat) (r : List Nat) (h : r.Nodup) :
    d.foldl (fun r i => r.erase i) r = r.filter (fun x => decide (x ∉ d)) := by
  induction d generalizing r with
  | nil => simp
  | cons i tl ih =>
      show tl.foldl _ (r.erase i) = _
      rw [ih (r.erase i) (h.erase i), List.Nodup.erase_eq_filter h i,
        List.filter_filter]
      apply List.filter_congr
      intro x hx
      by_cases hxi : x = i <;> by_cases hxt : x ∈ tl <;> simp [hxi, hxt]

theorem stopRemaining_eq (s : CState) (f : Nat → Bool)
    (hnd : s.running.Nodup) :
    stopRemaining s f
      = s.running.filter (fun x => decide (x ∉ s.running.filter f)) := by
  show (stopDrained s f).running = _
  rw [stopDrained, foldl_fac_running]
  exact foldl_erase_eq_filter _ _ hnd

/-- C3: `stop(wait_seconds)` is a two-phase shutdown.  (a) The
consumption loop is cancelled first — before any task cancellation — and
since tasks can only be spawned while the loop is active, no handler
execution starts after `stop` begins; (b) a handler that completes
within the drain window is never cancelled, and its completion signal is
set; (c) every handler still running once the window elapses is
cancelled; (d) when `stop` returns, the running-task set is empty. -/
theorem consumer_stop_two_phase (s : CState) (f : Nat → Bool)
    (hnd : s.running.Nodup) :
    ((s.loopActive = true →
        (consumerStop s f).2.head? = some SEvent.cancelLoop) ∧
      (consumerStop s f).1.loopActive = false ∧
      (∀ (t : CState) (i : Nat),
        (cstep t (CEvent.spawn i)).isSome = true → t.loopActive = true)) ∧
    (∀ i : Nat, i ∈ s.running → f i = true →
      SEvent.taskCancelled i ∉ (consumerStop s f).2 ∧
      i ∈ (consumerStop s f).1.signals) ∧
    (∀ i : Nat, i ∈ s.running → f i = false →
      SEvent.taskCancelled i ∈ (consumerStop s f).2) ∧
    (consumerStop s f).1.running = [] := by
  have hrem := stopRemaining_eq s f hnd
  refine ⟨⟨?_, ?_, ?_⟩, ?_, ?_, ?_⟩
  · intro hla
    simp [consumerStop, hla]
  · show ((stopRemaining s f).foldl finishAndCallback (stopDrained s f)).loopActive = false
    rw [foldl_fac_loopActive, stopDrained, foldl_fac_loopActive]
  · intro t i hsp
    by_cases hp : t.loopActive = true ∧ i ∉ t.spawned
    · exact hp.1
    · simp only [cstep, if_neg hp, Option.isSome_none] at hsp
      exact absurd hsp (by simp)
  · intro i hi hf
    constructor
    · intro hmem
      rcases List.mem_append.mp hmem with hmem | hmem
      · rcases List.mem_append.mp hmem with hmem | hmem
        · cases hla : s.loopActive <;> simp [hla] at hmem
        · simp [List.mem_map] at hmem
      · simp only [List.mem_map] at hmem
        obtain ⟨a, ha, haeq⟩ := hmem
        cases haeq
        rw [hrem] at ha
        obtain ⟨ha1, ha2⟩ := List.mem_filter.mp ha
        exact (of_decide_eq_true ha2) (List.mem_filter.mpr ⟨hi, hf⟩)
    · show i ∈ ((stopRemaining s f).foldl finishAndCallback (stopDrained s f)).signals
      apply foldl_fac_signals_mem
      left
      apply foldl_fac_signals_mem
      right
      exact List.mem_filter.mpr ⟨hi, hf⟩
  · intro i hi hf
    apply List.mem_append.mpr
    right
    apply List.mem_map.mpr
    refine ⟨i, ?_, rfl⟩
    rw [hrem]
    apply List.mem_filter.mpr
    refine ⟨hi, ?_⟩
    apply decide_eq_true
    intro hmem
    rw [(List.mem_filter.mp hmem).2] at hf
    exact Bool.noConfusion hf
  · rfl

/-- Witness for C3: from a state with tasks 1 and 2 running, with only
task 1 completing inside the drain window, `stop` cancels task 2. -/
theorem consumer_stop_two_phase_witness :
    SEvent.taskCancelled 2 ∈
      (consumerStop ⟨true, [1, 2], [], [], [1, 2], 0, []⟩
        (fun i => decide (i = 1))).2 :=
  (consumer_stop_two_phase ⟨true, [1, 2], [], [], [1, 2], 0, []⟩
    (fun i => decide (i = 1)) (by decide)).2.2.1 2 (by decide) (by decide)

/-! ## Queue monitor claims -/

/-- C6 counterexample: with the default threshold 5, previous sample 10
and current sample 7, the sampled length is at-or-above the threshold
and differs from the previous sample, yet the monitor iteration does not
log the growth warning — it logs the shrink warning (without the
recovery notice). -/
theorem monitor_growth_warning_counterexample :
    sizeWarningDefault ≤ 7 ∧ (some 10 : Option Nat) ≠ some 7 ∧
    monitorStep sizeWarningDefault (some 10) 7 = MonitorLog.shrunk 7 false ∧
    monitorStep sizeWarningDefault (some 10) 7 ≠ MonitorLog.grew 7 := by
  decide

/-- C6 amended: per sample the monitor logs exactly one size warning
when the length is at-or-above the threshold and differs from the
previous sample — the growth warning, unless the length shrank from a
previous at-or-above-threshold size, in which case the shrink warning is
logged instead (a shrink warning also fires when the length drops below
the threshold); the recovery notice is attached exactly when the length
drops below the threshold after the previous sample was at-or-above it;
no recovery notice is ever logged while the length is still at-or-above
the threshold; nothing is logged for an unchanged size. -/
theorem monitorShrunk_true_iff (w : Nat) (prev : Option Nat) (cur : Nat) :
    monitorShrunk w prev cur = true ↔
      ∃ p : Nat, prev = some p ∧ cur < p ∧ w ≤ p := by
  cases prev <;> simp [monitorShrunk]

theorem monitorWarn_true_iff (w : Nat) (prev : Option Nat) (cur : Nat) :
    monitorWarn w prev cur = true ↔ (w ≤ cur ∧ prev ≠ some cur) := by
  simp [monitorWarn]

theorem monitor_warning_and_recovery (w : Nat) (prev : Option Nat) (cur : Nat) :
    (prev = some cur → monitorStep w prev cur = MonitorLog.nothing) ∧
    (∀ p : Nat, prev = some p → w ≤ p → cur < p →
      monitorStep w prev cur = MonitorLog.shrunk cur (decide (cur < w))) ∧
    (w ≤ cur → prev ≠ some cur →
      (∀ p : Nat, prev = some p → ¬(cur < p ∧ w ≤ p)) →
      monitorStep w prev cur = MonitorLog.grew cur) ∧
    ((monitorStep w prev cur).isRecoveryNotice = true ↔
      ∃ p : Nat, prev = some p ∧ w ≤ p ∧ cur < w) ∧
    (w ≤ cur → (monitorStep w prev cur).isRecoveryNotice = false) ∧
    ((monitorStep w prev cur).isWarning = true ↔
      ((w ≤ cur ∧ prev ≠ some cur) ∨
        ∃ p : Nat, prev = some p ∧ cur < p ∧ w ≤ p)) := by
  refine ⟨?_, ?_, ?_, ?_, ?_, ?_⟩
  · intro h
    subst h
    have hs : monitorShrunk w (some cur) cur = false := by simp [monitorShrunk]
    have hw2 : monitorWarn w (some cur) cur = false := by simp [monitorWarn]
    simp [monitorStep, hs, hw2]
  · intro p hp hwp hcp
    subst hp
    have hs : monitorShrunk w (some p) cur = true := by
      simp [monitorShrunk, hcp, hwp]
    have hw2 : (!monitorWarn w (some p) cur) = decide (cur < w) := by
      by_cases hw : w ≤ cur <;>
        simp [monitorWarn, hw, Nat.ne_of_gt hcp] <;> omega
    simp [monitorStep, hs, hw2]
  · intro h1 h2 h3
    have hs : monitorShrunk w prev cur = false := by
      cases prev with
      | none => rfl
      | some p =>
          have hnp := h3 p rfl
          simp [monitorShrunk]
          omega
    have hw2 : monitorWarn w prev cur = true := by
      simp [monitorWarn, h1, h2]
    simp [monitorStep, hs, hw2]
  · constructor
    · intro h
      cases hs : monitorShrunk w prev cur with
      | false =>
          cases hw2 : monitorWarn w prev cur <;>
            simp [monitorStep, hs, hw2, MonitorLog.isRecoveryNotice] at h
      | true =>
          obtain ⟨p, hp, hcp, hwp⟩ := (monitorShrunk_true_iff w prev cur).mp hs
          subst hp
          simp [monitorStep, hs, MonitorLog.isRecoveryNotice] at h
          refine ⟨p, rfl, hwp, ?_⟩
          simp [monitorWarn, Nat.ne_of_gt hcp] at h
          omega
    · rintro ⟨p, hp, hwp, hcw⟩
      subst hp
      have hs : monitorShrunk w (some p) cur = true := by
        simp [monitorShrunk]
        omega
      have hw2 : monitorWarn w (some p) cur = false := by
        simp [monitorWarn]
        omega
      simp [monitorStep, hs, hw2, MonitorLog.isRecoveryNotice]
  · intro hw
    cases hs : monitorShrunk w prev cur with
    | false =>
        cases hw2 : monitorWarn w prev cur <;>
          simp [monitorStep, hs, hw2, MonitorLog.isRecoveryNotice]
    | true =>
        obtain ⟨p, hp, hcp, hwp⟩ := (monitorShrunk_true_iff w prev cur).mp hs
        subst hp
        have hw2 : monitorWarn w (some p) cur = true := by
          simp [monitorWarn, hw, Nat.ne_of_gt hcp]
        simp [monitorStep, hs, hw2, MonitorLog.isRecoveryNotice]
  · cases hs : monitorShrunk w prev cur with
    | true =>
        have hr := (monitorShrunk_true_iff w prev cur).mp hs
        simp [monitorStep, hs, MonitorLog.isWarning, hr]
    | false =>
        have hnr : ¬∃ p : Nat, prev = some p ∧ cur < p ∧ w ≤ p := by
          rw [← monitorShrunk_true_iff w prev cur]
          simp [hs]
        cases hw2 : monitorWarn w prev cur with
        | true =>
            have hr := (monitorWarn_true_iff w prev cur).mp hw2
            simp [monitorStep, hs, hw2, MonitorLog.isWarning, hr]
        | false =>
            have hnw : ¬(w ≤ cur ∧ prev ≠ some cur) := by
              rw [← monitorWarn_true_iff w prev cur]
              simp [hw2]
            simp [monitorStep, hs, hw2, MonitorLog.isWarning, hnw, hnr]

/-- Witness for C6 (amended): dropping from 10 to 3 with threshold 5
logs the shrink warning with the recovery notice. -/
theorem monitor_warning_and_recovery_witness :
    monitorStep 5 (some 10) 3 = MonitorLog.shrunk 3 (decide (3 < 5)) :=
  (monitor_warning_and_recovery 5 (some 10) 3).2.1 10 rfl (by decide) (by decide)

/-! ## Transport contract claims -/

/-- C8 counterexample: the default `EventTransport.consume` called with
an empty `listen_for` raises the generic unsupported-operation error;
the empty-listen-for configuration error is a different error, raised
only by the `_sanity_check_listen_for` helper. -/
theorem consume_empty_listen_for_counterexample :
    eventTransportConsume [] "L1" = Except.error TransportError.notImplemented ∧
    sanityCheckListenFor [] = Except.error TransportError.nothingToListenFor ∧
    TransportError.notImplemented ≠ TransportError.nothingToListenFor :=
  ⟨rfl, rfl, by decide⟩

/-- C8 amended: the default `EventTransport.consume` raises the
unsupported-operation error for every `listen_for`, empty or not; the
empty-listen-for configuration error is raised by
`_sanity_check_listen_for` — the helper concrete `consume`
implementations call at their start — exactly when `listen_for` is
empty. -/
theorem consume_default_unsupported_and_sanity_check
    (lf : List (String × String)) (ln : String) :
    eventTransportConsume lf ln = Except.error TransportError.notImplemented ∧
    (sanityCheckListenFor lf = Except.error TransportError.nothingToListenFor
      ↔ lf = []) := by
  refine ⟨rfl, ?_, ?_⟩
  · intro h
    by_cases he : lf = []
    · exact he
    · simp [sanityCheckListenFor, he] at h
  · intro h
    subst h
    rfl

/-! ## Event client claims -/

/-- C4: on a registered API with an existing event and a validly-named
event, `fire_event` fails with the invalid-event-arguments error —
reporting both argument counts and both sorted name sets — exactly when
the supplied keyword-argument name set differs from the declared
parameter-name set; when the sets are equal no such error is raised. -/
theorem fire_event_kwargs_set_check (c : EventClient) (nextId : Nat)
    (apiName eventName : String) (kwargs : List (String × Value))
    (api : Api) (event : ApiEvent)
    (hapi : c.apiRegistry.lookup apiName = some api)
    (hname : c.nameValid apiName eventName = true)
    (hev : api.getEvent eventName = some event) :
    ((kwargs.map Prod.fst).toFinset
        ≠ ((event.parameters.map EventParam.name).dedup).toFinset →
      fireEvent c nextId apiName eventName kwargs =
        .error (.invalidEventArguments kwargs.length
          (sortedStrings (kwargs.map Prod.fst))
          event.parameters.length
          (sortedStrings ((event.parameters.map EventParam.name).dedup)))) ∧
    ((kwargs.map Prod.fst).toFinset
        = ((event.parameters.map EventParam.name).dedup).toFinset →
      ∀ (a : Nat) (ns : List String) (b : Nat) (ps : List String),
        fireEvent c nextId apiName eventName kwargs ≠
          .error (.invalidEventArguments a ns b ps)) := by
  constructor
  · intro hne
    simp only [fireEvent, hapi, hname, hev, if_true]
    rw [if_pos hne]
  · intro heq a ns b ps hcontra
    simp only [fireEvent, hapi, hname, hev, if_true] at hcontra
    rw [if_neg (fun hn => hn heq)] at hcontra
    split at hcontra
    · exact Except.noConfusion hcontra
    · exact FireError.noConfusion (Except.error.inj hcontra)

/-- Witness for C4: firing `shop.order_placed` with
`{"order_id": 1, "extra": 2}` against declared parameters
`{"order_id"}` fails reporting counts 2 and 1 and the sorted name
sets. -/
theorem fire_event_kwargs_set_check_witness :
    fireEvent shopClient 0 "shop" "order_placed"
        [("order_id", Value.int 1), ("extra", Value.int 2)]
      = .error (.invalidEventArguments 2 ["extra", "order_id"] 1 ["order_id"]) := by
  have h := (fire_event_kwargs_set_check shopClient 0 "shop" "order_placed"
    [("order_id", Value.int 1), ("extra", Value.int 2)] shopApi
    ⟨[EventParam.plain "order_id"]⟩ rfl rfl rfl).1 (by decide)
  exact h.trans (congrArg Except.error (by decide))

/-- C7: firing `shop.order_placed` with `{"order_id": 1}` when the
declared parameters are `{"order_id"}` succeeds, dispatches exactly one
`SendEvent` command carrying the constructed message, and awaits that
command's completion signal before running the "after send" hook. -/
theorem fire_event_single_send_awaited_before_after_hook :
    fireEvent shopClient 0 "shop" "order_placed" [("order_id", Value.int 1)]
      = Except.ok orderPlacedTrace ∧
    orderPlacedTrace.countP FireEffect.isSendDispatch = 1 ∧
    orderPlacedTrace.indexOf
        (FireEffect.completionAwaited orderPlacedMessage) <
      orderPlacedTrace.indexOf
        (FireEffect.hookAfterEventSent orderPlacedMessage) := by
  refine ⟨rfl, by decide, by decide⟩

/-- C5 counterexample: a `listen` call whose `listener_name` is already
registered but whose listener is not callable fails with the
invalid-listener error, not the duplicate-registration error (the
callable sanity check runs first). -/
theorem listen_duplicate_name_counterexample :
    ("L1" ∈ (["L1"] : List String)) ∧
    ((listen ⟨[], ["L1"], fun _ _ => true, fun _ => true⟩
        [("shop", "order_placed")] ⟨false, []⟩ "L1").1
      = Except.error ListenError.invalidEventListener) ∧
    ((listen ⟨[], ["L1"], fun _ _ => true, fun _ => true⟩
        [("shop", "order_placed")] ⟨false, []⟩ "L1").1
      ≠ Except.error (ListenError.duplicateListener "L1")) := by
  refine ⟨by decide, rfl, ?_⟩
  intro h
  exact ListenError.noConfusion (Except.error.inj h)

/-- C5 amended: for a listener that passes the callable sanity check
(and validly-named events), `listen` with an already-registered name
fails with the duplicate-registration error and registers nothing, while
`listen` with a fresh name succeeds and adds the name to the registered
set. -/
theorem listen_duplicate_fails_fresh_succeeds (c : EventClient)
    (events : List (String × String)) (l : ListenerSig) (n : String)
    (hok : sanityCheckListener l = .ok ())
    (hnames : ∀ p ∈ events, c.nameValid p.1 p.2 = true) :
    (n ∈ c.eventListeners →
      (listen c events l n).1 = .error (.duplicateListener n) ∧
      (listen c events l n).2.eventListeners = c.eventListeners) ∧
    (n ∉ c.eventListeners →
      (listen c events l n).1
        = .ok [.consumeEventsDispatched events n, .completionAwaited n] ∧
      (listen c events l n).2.eventListeners = n :: c.eventListeners) := by
  have hfind : events.find? (fun p => !(c.nameValid p.1 p.2)) = none := by
    rw [List.find?_eq_none]
    intro p hp
    simp [hnames p hp]
  constructor
  · intro hmem
    simp [listen, hok, hmem]
  · intro hmem
    simp [listen, hok, hmem, hfind]

/-- Witness for C5 (amended): registering `"L1"` on a fresh client
succeeds and adds the name. -/
theorem listen_duplicate_fails_fresh_succeeds_witness :
    (listen shopClient [("shop", "order_placed")] okListener "L1").2.eventListeners
      = ["L1"] :=
  ((listen_duplicate_fails_fresh_succeeds shopClient [("shop", "order_placed")]
      okListener "L1" rfl (by decide)).2 (by decide)).2

/-- C9: every failing `listen` call leaves the client state — in
particular the registered-listener set — unchanged: the only mutation
(`self._event_listeners.add`) is the final statement, after all
validation and the `ConsumeEvents` dispatch. -/
theorem listen_failure_registers_nothing (c : EventClient)
    (events : List (String × String)) (l : ListenerSig) (n : String)
    (e : ListenError) (h : (listen c events l n).1 = .error e) :
    (listen c events l n).2 = c := by
  unfold listen at h ⊢
  cases hs : sanityCheckListener l with
  | error e2 => simp [hs]
  | ok u =>
      cases u
      simp only [hs] at h ⊢
      by_cases hmem : n ∈ c.eventListeners
      · simp [hmem]
      · simp only [if_neg hmem] at h ⊢
        cases hf : events.find? (fun p => !(c.nameValid p.1 p.2)) with
        | some p => simp [hf]
        | none =>
            simp only [hf] at h
            exact absurd h (by simp)

/-- Witness for C9: a duplicate-name failure leaves the client
unchanged. -/
theorem listen_failure_registers_nothing_witness :
    (listen ⟨[], ["L1"], fun _ _ => true, fun _ => true⟩ [] okListener "L1").2
      = ⟨[], ["L1"], fun _ _ => true, fun _ => true⟩ :=
  listen_failure_registers_nothing _ _ _ _
    (ListenError.duplicateListener "L1") rfl

/-- C2 (code bug): after registering listener `"L1"` for
`("shop", "order_placed")`, delivering a `ReceiveEvent` command for
`"L1"` with a message does not put the message on an intake queue:
`listen` stores only the name in the `Set[str]` `_event_listeners`, and
`handle_receive_event` then subscripts that set as a mapping, raising
`TypeError` — so the message is dropped and no consumption loop (which
`listen` never schedules) can acknowledge it. -/
theorem receive_event_for_registered_listener_raises_type_error :
    ((listen shopClient [("shop", "order_placed")] okListener "L1").2.eventListeners
      = ["L1"]) ∧
    (handle (listen shopClient [("shop", "order_placed")] okListener "L1").2
        (Command.receiveEvent orderPlacedMessage "L1")
      = Except.error PyErr.typeError) :=
  ⟨rfl, rfl⟩

/-- C10: routing any command whose variant has no registered handler on
the `EventClient` — every variant other than `ReceiveEvent` — through
`handle` raises the not-implemented error rather than silently ignoring
the command. -/
theorem handle_unregistered_variant_raises_not_implemented
    (c : EventClient) (cmd : Command) (h : cmd.isReceiveEvent = false) :
    handle c cmd = Except.error PyErr.notImplementedError := by
  cases cmd with
  | receiveEvent m ln => simp [Command.isReceiveEvent] at h
  | sendEvent m => rfl
  | acknowledgeEvent m => rfl
  | consumeEvents ev q ln => rfl

/-- Witness for C10: a `SendEvent` command routed through `handle`. -/
theorem handle_unregistered_variant_witness :
    handle shopClient (Command.sendEvent orderPlacedMessage)
      = Except.error PyErr.notImplementedError :=
  handle_unregistered_variant_raises_not_implemented shopClient
    (Command.sendEvent orderPlacedMessage) rfl

end Lightbus
